import Mathlib

/-!
Verification of the URL-liveness checking core of `spec_url_check.py`
(repository `spec-tree`).

The Python source is shallowly embedded: pure functions become Lean
functions, Python `dict`s become association lists (`List (String ×
UrlStatus)`) looked up by `dictGet`, Python `int`s become `Int`/`Nat`, and
fallible code (code paths that raise exceptions) returns `Option`.  The
external `curl` process invoked by `check_url_batch` is modelled by an
oracle `probe : String → RawProbeOutcome` supplying one raw outcome per
URL, which is the Probe Executor contract (one structured outcome record
per URL, in the order of the sorted batch).
-/

set_option maxHeartbeats 1000000

/-- What the URL is used for in the spec file (`UrlType` in the source). -/
inductive UrlType where
  | URL
  | SOURCE
  | PATCH
deriving DecidableEq, Repr

/-- Whether the URL works (`UrlStatus` in the source). -/
inductive UrlStatus where
  | UNCHECKED        -- URL has not yet been checked
  | UNSUPPORTED      -- scheme is not supported
  | VALID            -- URL is A-OK
  | REDIRECT         -- URL was redirected elsewhere and not checked
  | BAD_HOST         -- host does not exist
  | BAD_CERTIFICATE  -- encryption certificate is not valid
  | NOT_FOUND        -- 404 not found (or similar)
  | AUTHENTICATE     -- requires authentication
  | TIMEOUT          -- request timed out
  | TEMPORARY_ERR    -- temporary error; try again later
deriving DecidableEq, Repr

/-- One per-URL result record (`UrlResult` dataclass in the source). -/
structure UrlResult where
  name : String
  use : UrlType
  url : String
  status : UrlStatus
deriving DecidableEq, Repr

/-- Raw per-URL outcome parsed from one line of curl output in
`check_url_batch` (after the `int(...)` conversions; times are in
microseconds, i.e. already multiplied by the normal timeout factor
1000000). -/
structure RawProbeOutcome where
  response_code : Int
  ssl_verify_result : Int
  time_connect : Int
  time_total : Int
  num_connects : Int
deriving DecidableEq, Repr

/-- `PARALLEL_URL_THREADS` constant of the source. -/
def PARALLEL_URL_THREADS : Nat := 5

/-- `URL_BATCHES` constant of the source (target batch size). -/
def URL_BATCHES : Nat := 20

/-- `URL_BATCHES_MIN` constant of the source (smallest batch size). -/
def URL_BATCHES_MIN : Nat := 3

/-- `URL_TIMEOUT` constant of the source, in seconds. -/
def URL_TIMEOUT : Int := 7

/-- `URL_TIMEOUT_REDIRECT` constant of the source, in seconds. -/
def URL_TIMEOUT_REDIRECT : Int := 25

/-- Character class of the scheme part of `URL_MATCH_RE`, i.e. the regex
character class `[-+.a-zA-Z0-9]`. -/
def isSchemeChar (c : Char) : Bool :=
  c = '-' || c = '+' || c = '.' ||
    ('a' ≤ c && c ≤ 'z') || ('A' ≤ c && c ≤ 'Z') || ('0' ≤ c && c ≤ '9')

/-- Matching `URL_MATCH_RE = re.compile(r'([-+.a-zA-Z0-9]+)://')` against
the start of a character list: the (greedy) maximal class-character prefix
must be nonempty and be followed immediately by `://`.  Returns the
captured group 1 when the regex matches. -/
def schemeSplit (cs : List Char) : Option (List Char) :=
  let p := cs.takeWhile isSchemeChar
  let r := cs.dropWhile isSchemeChar
  if p ≠ [] ∧ r.take 3 = [':', '/', '/'] then some p else none

/-- ASCII lower-casing of one character, as `str.lower()` acts on the
ASCII scheme characters admitted by `URL_MATCH_RE`. -/
def lowerChar (c : Char) : Char :=
  if 'A' ≤ c ∧ c ≤ 'Z' then Char.ofNat (c.toNat + 32) else c

/-- The value of `URL_MATCH_RE.match(url).group(1).lower()`:
`some scheme` when the URL regex matches, `none` when `match` returns
`None` (in which case the Python callers raise `AttributeError`). -/
def schemeOf (url : String) : Option String :=
  (schemeSplit url.data).map (fun p => String.mk (p.map lowerChar))

/-- The filter used by `check_urls`: the URL regex matches and the scheme
is one of the supported set `{http, https, ftp, ftps}` (lines 509-520 of
the source). -/
def supportedScheme (url : String) : Bool :=
  match schemeOf url with
  | some s => s = "http" || s = "https" || s = "ftp" || s = "ftps"
  | none => false

/-- HTTP/HTTPS branch of `status_from_response_code` (source lines
384-398); the trailing `UNSUPPORTED` is the common fall-through
`return UrlStatus.UNSUPPORTED` reached after the unknown-reason log. -/
def http_status (response_code : Int) : UrlStatus :=
  if 200 ≤ response_code ∧ response_code < 300 then UrlStatus.VALID
  else if response_code = 423 ∨ response_code = 429 then UrlStatus.TEMPORARY_ERR
  else if response_code = 401 ∨ response_code = 402 ∨ response_code = 403 then
    UrlStatus.AUTHENTICATE
  else if 300 ≤ response_code ∧ response_code < 400 then UrlStatus.REDIRECT
  else if 400 ≤ response_code ∧ response_code < 500 then UrlStatus.NOT_FOUND
  else if 500 ≤ response_code ∧ response_code < 600 then UrlStatus.TEMPORARY_ERR
  else UrlStatus.UNSUPPORTED

/-- FTP/FTPS branch of `status_from_response_code` (source lines
399-412); the trailing `UNSUPPORTED` is the common fall-through. -/
def ftp_status (response_code : Int) : UrlStatus :=
  if response_code = 250 ∨ response_code = 257 ∨ response_code = 350 then UrlStatus.VALID
  else if response_code = 530 ∨ response_code = 430 then UrlStatus.AUTHENTICATE
  else if response_code = 221 ∨ response_code = 230 then UrlStatus.TEMPORARY_ERR
  else if 400 ≤ response_code ∧ response_code < 500 then UrlStatus.TEMPORARY_ERR
  else if 500 ≤ response_code ∧ response_code < 600 then UrlStatus.NOT_FOUND
  else UrlStatus.UNSUPPORTED

/-- Scheme dispatch of `status_from_response_code`: schemes outside the
two families fall through to `return UrlStatus.UNSUPPORTED`. -/
def scheme_status (scheme : String) (response_code : Int) : UrlStatus :=
  if scheme = "http" ∨ scheme = "https" then http_status response_code
  else if scheme = "ftp" ∨ scheme = "ftps" then ftp_status response_code
  else UrlStatus.UNSUPPORTED

/-- `status_from_response_code` (source lines 377-413).  `none` models the
`AttributeError` raised when `URL_MATCH_RE.match(url)` is `None`. -/
def status_from_response_code (response_code : Int) (url : String) : Option UrlStatus :=
  (schemeOf url).map (fun scheme => scheme_status scheme response_code)

/-- The near-deadline threshold `timeout * 1000000 * 0.99` of source line
478, in microseconds.  For both deadlines used by the program (7 and 25
seconds) the Python double product `timeout * 1000000 * 0.99` rounds to
exactly the integer `timeout * 990000`, so the comparison against the
integer `time_total` is modelled exactly. -/
def timeout_threshold (timeout : Int) : Int := timeout * 990000

/-- The per-line status classification of `check_url_batch` (source lines
477-492): timeout check first, then TLS verification, then the
zero-response-code heuristics, then scheme-specific dispatch on the
response code.  `status` is initialised to `UNSUPPORTED` and the
unknown-error branch leaves it unchanged. -/
def classify (timeout : Int) (o : RawProbeOutcome) (url : String) : Option UrlStatus :=
  if o.time_total ≥ timeout_threshold timeout then some UrlStatus.TIMEOUT
  else if o.ssl_verify_result ≠ 0 then some UrlStatus.BAD_CERTIFICATE
  else if o.response_code = 0 then
    (if o.time_connect = 0 ∧ o.num_connects = 0 then some UrlStatus.BAD_HOST
     else some UrlStatus.UNSUPPORTED)
  else status_from_response_code o.response_code url

/-- Lookup in a Python `dict` modelled as an association list: first
matching key wins (association lists built by the pipeline have distinct
keys, so this is exactly `dict` lookup). -/
def dictGet (k : String) : List (String × UrlStatus) → Option UrlStatus
  | [] => none
  | p :: rest => if p.1 = k then some p.2 else dictGet k rest

/-- Python dict merge `{**a, **b}`: the result contains every key of `a`
and of `b`, with `b`'s value winning on common keys. -/
def dictMerge (a b : List (String × UrlStatus)) : List (String × UrlStatus) :=
  a.filter (fun p => (dictGet p.1 b).isNone) ++ b

/-- Code-point comparison of two character lists, as Python compares
strings: true when `a ≤ b` lexicographically. -/
def charListLe : List Char → List Char → Bool
  | [], _ => true
  | _ :: _, [] => false
  | a :: as, b :: bs =>
    if a.toNat < b.toNat then true
    else if b.toNat < a.toNat then false
    else charListLe as bs

/-- Ascending insertion into a sorted list, by code-point order. -/
def insertStr (x : String) : List String → List String
  | [] => [x]
  | y :: ys => if charListLe x.data y.data then x :: y :: ys else y :: insertStr x ys

/-- Python `sorted` / `list.sort()` on strings (ascending code-point
lexicographic order), as used on batches (line 443) and on small URL
lists (line 539). -/
def sortStrings (l : List String) : List String := l.foldr insertStr []

/-- The inner result loop of `check_url_batch` (source lines 462-494): for
each curl output line, classify the outcome and pop the next URL off the
sorted list.  A line arriving with no URL left models the `IndexError`
from `urls.pop(0)`; a classification failure (no scheme match) models the
`AttributeError` from `status_from_response_code`; fewer lines than URLs
simply leaves the remaining URLs absent from the result dict. -/
def zipClassify (timeout : Int) :
    List String → List RawProbeOutcome → Option (List (String × UrlStatus))
  | _, [] => some []
  | [], _ :: _ => none
  | u :: us, o :: os =>
    match classify timeout o u, zipClassify timeout us os with
    | some s, some rest => some ((u, s) :: rest)
    | _, _ => none

/-- `check_url_batch` (source lines 430-499): sort the batch, pair the
curl output lines with the sorted URLs in order, and classify each.  The
curl output is supplied as the `outcomes` list (one parsed line per
element). -/
def check_url_batch (batch : List String) (redirect : Bool)
    (outcomes : List RawProbeOutcome) : Option (List (String × UrlStatus)) :=
  zipClassify (if redirect then URL_TIMEOUT_REDIRECT else URL_TIMEOUT)
    (sortStrings batch) outcomes

/-- `process_urls` (source lines 360-374): every submitted batch runs to
completion (the executor's scope waits for all futures before the first
exception can propagate out), then the per-batch result dicts are merged
in completion order; if any batch raised, the exception propagates
(`none`) instead of a partial map. -/
def process_urls (checker : List String → Option (List (String × UrlStatus)))
    (batches : List (List String)) : Option (List (String × UrlStatus)) :=
  let results := batches.map checker
  if results.all Option.isSome then
    some (results.foldl (fun acc r => dictMerge acc (r.getD [])) [])
  else none

/-- The URL filter of `check_urls` (source lines 509-521): drop syntactic
non-URLs and unsupported schemes before batching. -/
def check_urls_filtered (urls : List String) : List String :=
  urls.filter supportedScheme

/-- The batch-size policy of `check_urls` (source lines 523-525);
`int(len(all_urls) / PARALLEL_URL_THREADS)` is integer truncation of a
nonnegative quotient, i.e. `Nat` division. -/
def batch_size (n : Nat) : Nat :=
  if n ≥ URL_BATCHES * PARALLEL_URL_THREADS then URL_BATCHES
  else max (n / PARALLEL_URL_THREADS) URL_BATCHES_MIN

/-- The ordering policy of `check_urls` (source lines 538-539): sort the
filtered list when it has fewer than 100 entries, otherwise keep the
pseudo-random set order (modelled by the incoming list order). -/
def check_urls_ordered (urls : List String) : List String :=
  let f := check_urls_filtered urls
  if f.length < 100 then sortStrings f else f

/-- Fuel-indexed chunking loop; with fuel at least the list length and a
positive chunk size this is exactly the `while all_urls:` batching loop of
`check_urls` (source lines 541-548). -/
def makeBatchesAux : Nat → Nat → List String → List (List String)
  | 0, _, _ => []
  | _ + 1, _, [] => []
  | fuel + 1, s, l@(_ :: _) => l.take s :: makeBatchesAux fuel s (l.drop s)

/-- The batching loop of `check_urls` (source lines 541-548): split the
URL list into consecutive chunks of `s` URLs (the last chunk may be
shorter).  The loop always runs with `s ≥ URL_BATCHES_MIN > 0`. -/
def makeBatches (s : Nat) (l : List String) : List (List String) :=
  makeBatchesAux l.length s l

/-- The list of batches `check_urls` builds for a given input. -/
def check_urls_batches (urls : List String) : List (List String) :=
  makeBatches (batch_size (check_urls_filtered urls).length) (check_urls_ordered urls)

/-- `check_urls` (source lines 502-550), with the external curl process
modelled by the oracle `probe` supplying one raw outcome per URL of a
batch, in sorted-batch order (the Probe Executor contract of one output
line per URL). -/
def check_urls (redirect : Bool) (urls : List String)
    (probe : String → RawProbeOutcome) : Option (List (String × UrlStatus)) :=
  process_urls
    (fun b => check_url_batch b redirect ((sortStrings b).map probe))
    (check_urls_batches urls)

/-- The status update of one record in `PackageProcessor.update_url_status`
(source lines 218-233): exact URL first, then the trailing-slash rewrite
fallback, then the `UNSUPPORTED` default.  `entry.url[-1] != '/'` is the
last-character test (record URLs are nonempty since they matched
`URL_MATCH_RE` when collected). -/
def update_url_status_entry (statuses : List (String × UrlStatus))
    (entry : UrlResult) : UrlResult :=
  { entry with
    status :=
      match dictGet entry.url statuses with
      | some s => s
      | none =>
        if entry.url.data.getLast? ≠ some '/' then
          match dictGet (entry.url ++ "/") statuses with
          | some s => s
          | none => UrlStatus.UNSUPPORTED
        else UrlStatus.UNSUPPORTED }

/-- `PackageProcessor.update_url_status` over the whole result list. -/
def update_url_status (statuses : List (String × UrlStatus))
    (results : List UrlResult) : List UrlResult :=
  results.map (update_url_status_entry statuses)

/-- The recheck set collected by `main` for one recheck pass: the URLs of
the current map whose status equals the flagged status (source lines 612
and 619). -/
def recheckSet (flag : UrlStatus) (checked : List (String × UrlStatus)) : List String :=
  (checked.filter (fun p => p.2 = flag)).map Prod.fst

/-- One recheck pass of `main` (source lines 611-623): collect the flagged
URLs, re-check them with redirects followed, and merge the recheck result
over the current map (`{**checked_urls, **rechecked_urls}`); skipped
entirely when no URL is flagged. -/
def recheck_pass (probe : String → RawProbeOutcome) (flag : UrlStatus)
    (checked : List (String × UrlStatus)) : Option (List (String × UrlStatus)) :=
  let recheck := recheckSet flag checked
  if recheck.isEmpty then some checked
  else (check_urls true recheck probe).map (fun m => dictMerge checked m)

/-- The three-pass checking driver of `main` (source lines 606-626):
pass 1 over the full URL set without redirects, pass 2 over the
`REDIRECT` URLs, pass 3 over the (post-pass-2) `TEMPORARY_ERR` URLs.
Each pass may probe the network differently, hence one oracle per pass. -/
def run_checks (urls : List String)
    (p1 p2 p3 : String → RawProbeOutcome) : Option (List (String × UrlStatus)) :=
  (check_urls false urls p1).bind fun c1 =>
    (recheck_pass p2 UrlStatus.REDIRECT c1).bind fun c2 =>
      recheck_pass p3 UrlStatus.TEMPORARY_ERR c2

/-- Fuel-indexed list of chunk lengths produced by the batching loop on a
list of the given length; used to reason about batch counts and sizes. -/
def lenChunksAux : Nat → Nat → Nat → List Nat
  | 0, _, _ => []
  | _ + 1, _, 0 => []
  | fuel + 1, s, n + 1 => min s (n + 1) :: lenChunksAux fuel s (n + 1 - s)

example : schemeOf "http://example.com" = some "http" := by decide
example : schemeOf "HTTPS://x" = some "https" := by decide
example : schemeOf "no-scheme" = none := by decide
example : supportedScheme "git://x" = false := by decide
example : status_from_response_code 200 "http://a" = some UrlStatus.VALID := by decide
example : status_from_response_code 530 "ftp://a" = some UrlStatus.AUTHENTICATE := by decide
example : classify 7 ⟨0, 0, 0, 6930000, 0⟩ "http://a" = some UrlStatus.TIMEOUT := by decide
example : classify 7 ⟨200, 1, 5, 10, 1⟩ "http://a" = some UrlStatus.BAD_CERTIFICATE := by decide
example : check_url_batch ["http://b", "http://a"] false
    [⟨200, 0, 5, 10, 1⟩, ⟨301, 0, 5, 10, 1⟩] =
    some [("http://a", UrlStatus.VALID), ("http://b", UrlStatus.REDIRECT)] := by decide
example : check_urls false ["http://a"] (fun _ => ⟨301, 0, 5, 10, 1⟩) =
    some [("http://a", UrlStatus.REDIRECT)] := by decide
example : batch_size 1000 = 20 := by decide
example : batch_size 10 = 3 := by decide
example : (makeBatches 3 ["a", "b", "c", "d"]).map List.length = [3, 1] := by decide
example : run_checks ["http://a"] (fun _ => ⟨301, 0, 5, 10, 1⟩)
    (fun _ => ⟨200, 0, 5, 10, 1⟩) (fun _ => ⟨200, 0, 5, 10, 1⟩) =
    some [("http://a", UrlStatus.VALID)] := by decide
example : update_url_status_entry [("http://a/", UrlStatus.VALID)]
    ⟨"p", UrlType.URL, "http://a", UrlStatus.UNCHECKED⟩ =
    ⟨"p", UrlType.URL, "http://a", UrlStatus.VALID⟩ := by decide

/-! Helper lemmas. -/

lemma status_eq_of_scheme (url : String) (sch : String) (code : Int)
    (h : schemeOf url = some sch) :
    status_from_response_code code url = some (scheme_status sch code) := by
  unfold status_from_response_code
  rw [h]
  rfl

lemma scheme_status_http (c : Int) : scheme_status "http" c = http_status c := by
  unfold scheme_status
  rw [if_pos (Or.inl rfl)]

lemma scheme_status_https (c : Int) : scheme_status "https" c = http_status c := by
  unfold scheme_status
  rw [if_pos (Or.inr rfl)]

lemma scheme_status_ftp (c : Int) : scheme_status "ftp" c = ftp_status c := by
  unfold scheme_status
  rw [if_neg (by decide), if_pos (Or.inl rfl)]

lemma scheme_status_ftps (c : Int) : scheme_status "ftps" c = ftp_status c := by
  unfold scheme_status
  rw [if_neg (by decide), if_pos (Or.inr rfl)]

/-! Claim theorems: classification rules (C1, C2, C4). -/

/-- C1: for every raw probe outcome whose total time is at least 0.99
times the deadline in effect, classification assigns `TIMEOUT`, whatever
the response code and TLS result are (the priority-1 rule dominates). -/
theorem classify_timeout_dominates (timeout : Int) (o : RawProbeOutcome) (url : String)
    (h : o.time_total ≥ timeout_threshold timeout) :
    classify timeout o url = some UrlStatus.TIMEOUT := by
  unfold classify
  rw [if_pos h]

theorem classify_timeout_dominates_witness :
    classify 7 ⟨200, 1, 5, 6930000, 1⟩ "http://a" = some UrlStatus.TIMEOUT :=
  classify_timeout_dominates 7 ⟨200, 1, 5, 6930000, 1⟩ "http://a" (by decide)

/-- C2: for every raw probe outcome below the timeout threshold with
`tls_verify_result = 1` and `response_code = 200`, classification assigns
`BAD_CERTIFICATE`, not `VALID`: the TLS check precedes the response-code
dispatch. -/
theorem classify_bad_certificate_precedence (timeout : Int) (o : RawProbeOutcome)
    (url : String) (h1 : o.time_total < timeout_threshold timeout)
    (h2 : o.ssl_verify_result = 1) (h3 : o.response_code = 200) :
    classify timeout o url = some UrlStatus.BAD_CERTIFICATE ∧
      classify timeout o url ≠ some UrlStatus.VALID := by
  have hcl : classify timeout o url = some UrlStatus.BAD_CERTIFICATE := by
    unfold classify
    rw [if_neg (not_le.mpr h1), if_pos (by rw [h2]; decide)]
  exact ⟨hcl, by rw [hcl]; decide⟩

theorem classify_bad_certificate_precedence_witness :
    classify 7 ⟨200, 1, 5, 10, 1⟩ "http://a" = some UrlStatus.BAD_CERTIFICATE ∧
      classify 7 ⟨200, 1, 5, 10, 1⟩ "http://a" ≠ some UrlStatus.VALID :=
  classify_bad_certificate_precedence 7 ⟨200, 1, 5, 10, 1⟩ "http://a"
    (by decide) (by decide) (by decide)

/-- C4: for outcomes that pass the timeout and TLS checks and have
`response_code = 0`: if both `time_connect` and `num_connects` are zero
the status is `BAD_HOST`; otherwise an error is logged and the URL keeps
the default `UNSUPPORTED` status rather than being guessed. -/
theorem classify_zero_response_code (timeout : Int) (o : RawProbeOutcome) (url : String)
    (h1 : o.time_total < timeout_threshold timeout)
    (h2 : o.ssl_verify_result = 0) (h3 : o.response_code = 0) :
    (o.time_connect = 0 ∧ o.num_connects = 0 →
       classify timeout o url = some UrlStatus.BAD_HOST) ∧
    (¬(o.time_connect = 0 ∧ o.num_connects = 0) →
       classify timeout o url = some UrlStatus.UNSUPPORTED) := by
  have hbase : classify timeout o url =
      (if o.time_connect = 0 ∧ o.num_connects = 0 then some UrlStatus.BAD_HOST
       else some UrlStatus.UNSUPPORTED) := by
    unfold classify
    rw [if_neg (not_le.mpr h1), if_neg (by rw [h2]; decide), if_pos h3]
  constructor
  · intro hc
    rw [hbase, if_pos hc]
  · intro hc
    rw [hbase, if_neg hc]

theorem classify_zero_response_code_witness :
    classify 7 ⟨0, 0, 0, 10, 0⟩ "http://a" = some UrlStatus.BAD_HOST :=
  (classify_zero_response_code 7 ⟨0, 0, 0, 10, 0⟩ "http://a"
    (by decide) (by decide) (by decide)).1 (by decide)

/-- C3: the full response-code table of `status_from_response_code` for
the HTTP family and the FTP family; codes outside the table are left
unclassified, i.e. mapped to the `UNSUPPORTED` default. -/
theorem status_from_response_code_table (url : String) (code : Int) :
    ((schemeOf url = some "http" ∨ schemeOf url = some "https") →
       ((200 ≤ code ∧ code < 300) →
          status_from_response_code code url = some UrlStatus.VALID) ∧
       ((code = 423 ∨ code = 429) →
          status_from_response_code code url = some UrlStatus.TEMPORARY_ERR) ∧
       ((code = 401 ∨ code = 402 ∨ code = 403) →
          status_from_response_code code url = some UrlStatus.AUTHENTICATE) ∧
       ((300 ≤ code ∧ code < 400) →
          status_from_response_code code url = some UrlStatus.REDIRECT) ∧
       ((400 ≤ code ∧ code < 500 ∧ code ≠ 423 ∧ code ≠ 429 ∧
           code ≠ 401 ∧ code ≠ 402 ∧ code ≠ 403) →
          status_from_response_code code url = some UrlStatus.NOT_FOUND) ∧
       ((500 ≤ code ∧ code < 600) →
          status_from_response_code code url = some UrlStatus.TEMPORARY_ERR) ∧
       ((code ≠ 0 ∧ ¬(200 ≤ code ∧ code < 600)) →
          status_from_response_code code url = some UrlStatus.UNSUPPORTED)) ∧
    ((schemeOf url = some "ftp" ∨ schemeOf url = some "ftps") →
       ((code = 250 ∨ code = 257 ∨ code = 350) →
          status_from_response_code code url = some UrlStatus.VALID) ∧
       ((code = 530 ∨ code = 430) →
          status_from_response_code code url = some UrlStatus.AUTHENTICATE) ∧
       ((code = 221 ∨ code = 230) →
          status_from_response_code code url = some UrlStatus.TEMPORARY_ERR) ∧
       ((400 ≤ code ∧ code < 500 ∧ code ≠ 430) →
          status_from_response_code code url = some UrlStatus.TEMPORARY_ERR) ∧
       ((500 ≤ code ∧ code < 600 ∧ code ≠ 530) →
          status_from_response_code code url = some UrlStatus.NOT_FOUND) ∧
       ((code ≠ 0 ∧ ¬(400 ≤ code ∧ code < 600) ∧ code ≠ 250 ∧ code ≠ 257 ∧
           code ≠ 350 ∧ code ≠ 221 ∧ code ≠ 230) →
          status_from_response_code code url = some UrlStatus.UNSUPPORTED)) := by
  constructor
  · intro hs
    have hrw : status_from_response_code code url = some (http_status code) := by
      rcases hs with h | h
      · rw [status_eq_of_scheme url "http" code h, scheme_status_http]
      · rw [status_eq_of_scheme url "https" code h, scheme_status_https]
    refine ⟨?_, ?_, ?_, ?_, ?_, ?_, ?_⟩ <;> intro hcond <;> rw [hrw] <;>
      unfold http_status <;> split_ifs <;> first | rfl | (exfalso; omega)
  · intro hs
    have hrw : status_from_response_code code url = some (ftp_status code) := by
      rcases hs with h | h
      · rw [status_eq_of_scheme url "ftp" code h, scheme_status_ftp]
      · rw [status_eq_of_scheme url "ftps" code h, scheme_status_ftps]
    refine ⟨?_, ?_, ?_, ?_, ?_, ?_⟩ <;> intro hcond <;> rw [hrw] <;>
      unfold ftp_status <;> split_ifs <;> first | rfl | (exfalso; omega)

theorem status_from_response_code_table_witness :
    status_from_response_code 404 "http://a" = some UrlStatus.NOT_FOUND ∧
      status_from_response_code 404 "ftp://a" = some UrlStatus.TEMPORARY_ERR :=
  ⟨((status_from_response_code_table "http://a" 404).1
      (Or.inl (by decide))).2.2.2.2.1 (by decide),
   ((status_from_response_code_table "ftp://a" 404).2
      (Or.inl (by decide))).2.2.2.1 (by decide)⟩

/-! Batch sizing (C7). -/

lemma makeBatchesAux_map_length (s : Nat) :
    ∀ (fuel : Nat) (l : List String),
      (makeBatchesAux fuel s l).map List.length = lenChunksAux fuel s l.length := by
  intro fuel
  induction fuel with
  | zero => intro l; rfl
  | succ n ih =>
    intro l
    cases l with
    | nil => rfl
    | cons x xs =>
      simp only [makeBatchesAux, List.map_cons, List.length_cons, lenChunksAux, ih,
        List.length_take, List.length_drop]

/-- C7: batch sizing — 1000 filtered URLs yield 50 batches of size 20;
10 filtered URLs yield batch size `max(10/5, 3) = 3` and exactly 4 batches
of sizes 3, 3, 3, 1; in general the target size 20 is used whenever the
count is at least target × workers, and otherwise the size shrinks to
`max(count/workers, minimum)`. -/
theorem batch_sizing :
    (∀ l : List String, l.length = 1000 →
       (makeBatches (batch_size 1000) l).length = 50 ∧
         ∀ b ∈ makeBatches (batch_size 1000) l, b.length = 20) ∧
    (∀ l : List String, l.length = 10 →
       batch_size 10 = 3 ∧
         (makeBatches (batch_size 10) l).map List.length = [3, 3, 3, 1]) ∧
    (∀ n : Nat, n ≥ URL_BATCHES * PARALLEL_URL_THREADS →
       batch_size n = URL_BATCHES) ∧
    (∀ n : Nat, n < URL_BATCHES * PARALLEL_URL_THREADS →
       batch_size n = max (n / PARALLEL_URL_THREADS) URL_BATCHES_MIN) := by
  have hmap : ∀ (s : Nat) (l : List String),
      (makeBatches s l).map List.length = lenChunksAux l.length s l.length := by
    intro s l
    exact makeBatchesAux_map_length s l.length l
  refine ⟨?_, ?_, ?_, ?_⟩
  · intro l hl
    have h1000 : (makeBatches (batch_size 1000) l).map List.length =
        List.replicate 50 20 := by
      rw [hmap, hl]
      decide
    constructor
    · have := congrArg List.length h1000
      simpa using this
    · intro b hb
      have : b.length ∈ List.replicate 50 20 := by
        rw [← h1000]
        exact List.mem_map_of_mem List.length hb
      exact List.eq_of_mem_replicate this
  · intro l hl
    refine ⟨by decide, ?_⟩
    rw [hmap, hl]
    decide
  · intro n hn
    unfold batch_size
    rw [if_pos hn]
  · intro n hn
    unfold batch_size
    rw [if_neg (not_le.mpr hn)]

theorem batch_sizing_witness :
    ((makeBatches (batch_size 1000) (List.replicate 1000 "http://a")).length = 50) ∧
      ((makeBatches (batch_size 10) (List.replicate 10 "http://a")).map List.length =
        [3, 3, 3, 1]) :=
  ⟨(batch_sizing.1 (List.replicate 1000 "http://a")
      (List.length_replicate 1000 "http://a")).1,
   (batch_sizing.2.1 (List.replicate 10 "http://a")
      (List.length_replicate 10 "http://a")).2⟩

/-! Scheduler exception propagation (C9). -/

/-- C9: if executing any batch raises an exception, `process_urls`
propagates the exception to its caller — after every submitted batch has
been run (the model applies the checker to all batches before the merge) —
rather than silently treating the crashed batch as empty results; and
conversely a successful return means no batch raised. -/
theorem process_urls_propagates_exceptions
    (checker : List String → Option (List (String × UrlStatus)))
    (batches : List (List String)) :
    process_urls checker batches = none ↔ ∃ b ∈ batches, checker b = none := by
  unfold process_urls
  by_cases h : (batches.map checker).all Option.isSome
  · rw [if_pos h]
    simp only [List.all_eq_true, List.mem_map] at h
    constructor
    · intro hc
      exact absurd hc (by simp)
    · rintro ⟨b, hb, hcb⟩
      have := h (checker b) ⟨b, hb, rfl⟩
      rw [hcb] at this
      simp at this
  · rw [if_neg h]
    simp only [List.all_eq_true, List.mem_map, not_forall] at h
    constructor
    · intro _
      obtain ⟨r, ⟨b, hb, hrb⟩, hns⟩ := h
      subst hrb
      refine ⟨b, hb, ?_⟩
      cases hcb : checker b with
      | none => rfl
      | some v => rw [hcb] at hns; simp at hns
    · intro _
      rfl

theorem process_urls_propagates_exceptions_witness :
    process_urls (fun _ => none) [["http://a"]] = none :=
  (process_urls_propagates_exceptions (fun _ => none) [["http://a"]]).mpr
    ⟨["http://a"], by simp, rfl⟩

/-! Trailing-slash fallback (C10). -/

/-- C10: when a record's URL is not a key of the status map, and it does
not end in a slash while the slash-suffixed URL is a key, the record gets
the slash-suffixed URL's status; only when neither form is present does it
fall back to `UNSUPPORTED`. -/
theorem trailing_slash_fallback (statuses : List (String × UrlStatus))
    (e : UrlResult) (h1 : dictGet e.url statuses = none) :
    (∀ s, e.url.data.getLast? ≠ some '/' →
       dictGet (e.url ++ "/") statuses = some s →
       (update_url_status_entry statuses e).status = s) ∧
    ((e.url.data.getLast? ≠ some '/' → dictGet (e.url ++ "/") statuses = none) →
       (update_url_status_entry statuses e).status = UrlStatus.UNSUPPORTED) := by
  constructor
  · intro s hslash hget
    unfold update_url_status_entry
    simp only [h1, if_pos hslash, hget]
  · intro hnone
    unfold update_url_status_entry
    by_cases hslash : e.url.data.getLast? = some '/'
    · simp only [h1, hslash]
      simp
    · simp only [h1, if_pos hslash, hnone hslash]

theorem trailing_slash_fallback_witness :
    (update_url_status_entry [("http://a/", UrlStatus.VALID)]
       ⟨"p", UrlType.URL, "http://a", UrlStatus.UNCHECKED⟩).status = UrlStatus.VALID :=
  (trailing_slash_fallback [("http://a/", UrlStatus.VALID)]
      ⟨"p", UrlType.URL, "http://a", UrlStatus.UNCHECKED⟩ (by decide)).1
    UrlStatus.VALID (by decide) (by decide)

/-! Dictionary (association-list) lemmas. -/

lemma dictGet_eq_none_iff (k : String) (m : List (String × UrlStatus)) :
    dictGet k m = none ↔ k ∉ m.map Prod.fst := by
  induction m with
  | nil => simp [dictGet]
  | cons p rest ih =>
    unfold dictGet
    by_cases hp : p.1 = k
    · simp [hp]
    · simp [hp, ih, Ne.symm hp]

lemma dictGet_isSome_iff (k : String) (m : List (String × UrlStatus)) :
    (dictGet k m).isSome ↔ k ∈ m.map Prod.fst := by
  rw [← not_iff_not]
  simp only [Option.not_isSome_iff_eq_none]
  exact dictGet_eq_none_iff k m

lemma dictGet_cons (k : String) (p : String × UrlStatus)
    (rest : List (String × UrlStatus)) :
    dictGet k (p :: rest) = if p.1 = k then some p.2 else dictGet k rest := rfl

lemma dictGet_some_mem {k : String} {v : UrlStatus} {m : List (String × UrlStatus)}
    (h : dictGet k m = some v) : (k, v) ∈ m := by
  induction m with
  | nil => simp [dictGet] at h
  | cons p rest ih =>
    rw [dictGet_cons] at h
    by_cases hp : p.1 = k
    · rw [if_pos hp] at h
      have hpkv : p = (k, v) := by
        cases p
        simp at hp h
        simp [hp, h]

      rw [hpkv]
      exact List.mem_cons_self (k, v) rest
    · rw [if_neg hp] at h
      exact List.mem_cons_of_mem p (ih h)

lemma mem_dictGet {k : String} {v : UrlStatus} {m : List (String × UrlStatus)}
    (hnd : (m.map Prod.fst).Nodup) (h : (k, v) ∈ m) : dictGet k m = some v := by
  induction m with
  | nil => simp at h
  | cons p rest ih =>
    simp only [List.map_cons, List.nodup_cons] at hnd
    rcases List.mem_cons.mp h with heq | hmem
    · subst heq
      simp [dictGet]
    · have hk : k ∈ rest.map Prod.fst :=
        List.mem_map_of_mem Prod.fst hmem
      have hne : p.1 ≠ k := fun hc => hnd.1 (hc ▸ hk)
      rw [dictGet_cons, if_neg hne]
      exact ih hnd.2 hmem

lemma dictGet_append_of_some {k : String} {v : UrlStatus}
    {a b : List (String × UrlStatus)} (h : dictGet k a = some v) :
    dictGet k (a ++ b) = some v := by
  induction a with
  | nil => simp [dictGet] at h
  | cons p rest ih =>
    rw [dictGet_cons] at h
    rw [List.cons_append, dictGet_cons]
    by_cases hp : p.1 = k
    · rwa [if_pos hp] at h ⊢
    · rw [if_neg hp] at h ⊢
      exact ih h

lemma dictGet_append_of_none {k : String} {a b : List (String × UrlStatus)}
    (h : dictGet k a = none) : dictGet k (a ++ b) = dictGet k b := by
  induction a with
  | nil => rfl
  | cons p rest ih =>
    rw [dictGet_cons] at h
    rw [List.cons_append, dictGet_cons]
    by_cases hp : p.1 = k
    · rw [if_pos hp] at h
      exact absurd h (by simp)
    · rw [if_neg hp] at h
      rw [if_neg hp]
      exact ih h

lemma dictGet_filter_key (k : String) (f : String → Bool)
    (m : List (String × UrlStatus)) :
    dictGet k (m.filter (fun p => f p.1)) = if f k then dictGet k m else none := by
  induction m with
  | nil => simp [dictGet]
  | cons p rest ih =>
    by_cases hf : f p.1
    · rw [List.filter_cons_of_pos (by simpa using hf), dictGet_cons, dictGet_cons]
      by_cases hp : p.1 = k
      · subst hp
        rw [if_pos rfl, if_pos hf, if_pos rfl]
      · rw [if_neg hp, ih, if_neg hp]
    · rw [List.filter_cons_of_neg (by simpa using hf), dictGet_cons]
      by_cases hp : p.1 = k
      · subst hp
        rw [ih, if_neg hf, if_pos rfl, if_neg hf]
      · rw [ih, if_neg hp]

lemma dictGet_dictMerge (k : String) (a b : List (String × UrlStatus)) :
    dictGet k (dictMerge a b) =
      match dictGet k b with
      | some v => some v
      | none => dictGet k a := by
  unfold dictMerge
  cases hb : dictGet k b with
  | some v =>
    have hfa : dictGet k (a.filter (fun p => (dictGet p.1 b).isNone)) = none := by
      rw [dictGet_filter_key k (fun x => (dictGet x b).isNone) a, if_neg (by simp [hb])]
    rw [dictGet_append_of_none hfa, hb]
  | none =>
    have hfa : dictGet k (a.filter (fun p => (dictGet p.1 b).isNone)) = dictGet k a := by
      rw [dictGet_filter_key k (fun x => (dictGet x b).isNone) a, if_pos (by simp [hb])]
    cases ha : dictGet k a with
    | some v =>
      rw [dictGet_append_of_some (hfa.trans ha)]
    | none =>
      rw [dictGet_append_of_none (hfa.trans ha), hb]

lemma map_fst_filter_key (f : String → Bool) (m : List (String × UrlStatus)) :
    (m.filter (fun p => f p.1)).map Prod.fst = (m.map Prod.fst).filter f := by
  induction m with
  | nil => rfl
  | cons p rest ih =>
    by_cases hf : f p.1
    · rw [List.filter_cons_of_pos (by simpa using hf), List.map_cons, List.map_cons,
        List.filter_cons_of_pos (by simpa using hf), ih]
    · rw [List.filter_cons_of_neg (by simpa using hf), List.map_cons,
        List.filter_cons_of_neg (by simpa using hf), ih]

lemma keys_dictMerge (a b : List (String × UrlStatus)) :
    (dictMerge a b).map Prod.fst =
      (a.map Prod.fst).filter (fun k => (dictGet k b).isNone) ++ b.map Prod.fst := by
  unfold dictMerge
  rw [List.map_append, map_fst_filter_key (fun x => (dictGet x b).isNone) a]

lemma keys_dictMerge_of_disjoint {a b : List (String × UrlStatus)}
    (h : ∀ k ∈ a.map Prod.fst, dictGet k b = none) :
    (dictMerge a b).map Prod.fst = a.map Prod.fst ++ b.map Prod.fst := by
  rw [keys_dictMerge]
  congr 1
  apply List.filter_eq_self.mpr
  intro k hk
  simp [h k hk]

/-! Sorting and batching lemmas. -/

lemma insertStr_perm (x : String) (l : List String) :
    (insertStr x l).Perm (x :: l) := by
  induction l with
  | nil => exact List.Perm.refl [x]
  | cons y ys ih =>
    unfold insertStr
    by_cases hle : charListLe x.data y.data
    · rw [if_pos hle]
    · rw [if_neg hle]
      exact List.Perm.trans (List.Perm.cons y ih) (List.Perm.swap x y ys)

lemma sortStrings_perm (l : List String) : (sortStrings l).Perm l := by
  induction l with
  | nil => exact List.Perm.refl []
  | cons x xs ih =>
    show (insertStr x (sortStrings xs)).Perm (x :: xs)
    exact List.Perm.trans (insertStr_perm x (sortStrings xs)) (List.Perm.cons x ih)

lemma batch_size_pos (n : Nat) : 0 < batch_size n := by
  unfold batch_size
  by_cases h : n ≥ URL_BATCHES * PARALLEL_URL_THREADS
  · rw [if_pos h]
    decide
  · rw [if_neg h]
    have : (0 : Nat) < URL_BATCHES_MIN := by decide
    omega

lemma makeBatchesAux_join (s : Nat) (hs : s ≠ 0) :
    ∀ (fuel : Nat) (l : List String), l.length ≤ fuel →
      (makeBatchesAux fuel s l).flatten = l := by
  intro fuel
  induction fuel with
  | zero =>
    intro l hl
    have hnil : l = [] := List.length_eq_zero.mp (Nat.le_zero.mp hl)
    subst hnil
    rfl
  | succ n ih =>
    intro l hl
    cases l with
    | nil => rfl
    | cons x xs =>
      have hdrop : ((x :: xs).drop s).length ≤ n := by
        rw [List.length_drop]
        simp only [List.length_cons] at hl ⊢
        omega
      simp only [makeBatchesAux, List.flatten_cons, ih _ hdrop, List.take_append_drop]

lemma makeBatches_join {s : Nat} (hs : s ≠ 0) (l : List String) :
    (makeBatches s l).flatten = l :=
  makeBatchesAux_join s hs l.length l (le_refl _)

lemma check_urls_ordered_perm (urls : List String) :
    (check_urls_ordered urls).Perm (check_urls_filtered urls) := by
  unfold check_urls_ordered
  by_cases h : (check_urls_filtered urls).length < 100
  · rw [if_pos h]
    exact sortStrings_perm _
  · rw [if_neg h]

lemma check_urls_batches_join (urls : List String) :
    (check_urls_batches urls).flatten = check_urls_ordered urls :=
  makeBatches_join (Nat.pos_iff_ne_zero.mp (batch_size_pos _)) _

/-! Classification success and `zipClassify` lemmas. -/

lemma classify_isSome_of_scheme {url : String} (timeout : Int) (o : RawProbeOutcome)
    (h : (schemeOf url).isSome) : (classify timeout o url).isSome := by
  obtain ⟨sch, hsch⟩ := Option.isSome_iff_exists.mp h
  unfold classify
  split_ifs <;>
    simp [status_from_response_code, hsch]

lemma schemeOf_isSome_of_supported {url : String} (h : supportedScheme url = true) :
    (schemeOf url).isSome := by
  unfold supportedScheme at h
  cases hs : schemeOf url with
  | some s => simp
  | none => rw [hs] at h; simp at h

lemma zipClassify_spec (timeout : Int) :
    ∀ (us : List String) (os : List RawProbeOutcome),
      os.length = us.length → (∀ u ∈ us, (schemeOf u).isSome) →
      ∃ r, zipClassify timeout us os = some r ∧ r.map Prod.fst = us := by
  intro us
  induction us with
  | nil =>
    intro os hlen _
    have hos : os = [] := List.length_eq_zero.mp (by simpa using hlen)
    subst hos
    exact ⟨[], rfl, rfl⟩
  | cons u us ih =>
    intro os hlen hsch
    cases os with
    | nil => simp at hlen
    | cons o os =>
      simp only [List.length_cons, Nat.succ.injEq] at hlen
      obtain ⟨r, hr, hkeys⟩ := ih os hlen (fun x hx => hsch x (List.mem_cons_of_mem u hx))
      have hcl : (classify timeout o u).isSome :=
        classify_isSome_of_scheme timeout o (hsch u (List.mem_cons_self u us))
      obtain ⟨s, hs⟩ := Option.isSome_iff_exists.mp hcl
      refine ⟨(u, s) :: r, ?_, ?_⟩
      · unfold zipClassify
        rw [hs, hr]
      · rw [List.map_cons, hkeys]

/-! Scheduler and pipeline specification lemmas. -/

lemma process_urls_fold_spec
    (checker : List String → Option (List (String × UrlStatus))) :
    ∀ (batches : List (List String)) (acc : List (String × UrlStatus)),
      (∀ b ∈ batches, ∃ r, checker b = some r ∧ (r.map Prod.fst).Perm b) →
      (acc.map Prod.fst ++ batches.flatten).Nodup →
      ((batches.map checker).all Option.isSome = true) ∧
        (((batches.map checker).foldl (fun a r => dictMerge a (r.getD [])) acc).map
            Prod.fst).Perm (acc.map Prod.fst ++ batches.flatten) := by
  intro batches
  induction batches with
  | nil =>
    intro acc _ _
    simp
  | cons b bs ih =>
    intro acc hok hnd
    obtain ⟨r, hr, hkeys⟩ := hok b (List.mem_cons_self b bs)
    rw [List.flatten_cons] at hnd
    have hnd' := hnd
    rw [← List.append_assoc] at hnd'
    have hsplit := List.nodup_append.mp hnd'
    have hdisj : ∀ k ∈ acc.map Prod.fst, dictGet k r = none := by
      intro k hk
      rw [dictGet_eq_none_iff]
      intro hkr
      have hkb : k ∈ b := hkeys.mem_iff.mp hkr
      have : k ∉ b := by
        intro hc
        exact (List.nodup_append.mp hnd).2.2 hk (by
          exact List.mem_append.mpr (Or.inl hc))
      exact this hkb
    have hmk : (dictMerge acc r).map Prod.fst = acc.map Prod.fst ++ r.map Prod.fst :=
      keys_dictMerge_of_disjoint hdisj
    have hpermnd :
        (acc.map Prod.fst ++ (b ++ bs.flatten)).Perm
          (acc.map Prod.fst ++ (r.map Prod.fst ++ bs.flatten)) :=
      List.Perm.append_left (acc.map Prod.fst)
        (List.Perm.append_right bs.flatten hkeys.symm)
    have hnd2 : ((dictMerge acc r).map Prod.fst ++ bs.flatten).Nodup := by
      rw [hmk, List.append_assoc]
      exact hpermnd.nodup_iff.mp hnd
    obtain ⟨hall, hperm⟩ := ih (dictMerge acc r)
      (fun b' hb' => hok b' (List.mem_cons_of_mem b hb')) hnd2
    constructor
    · simp only [List.map_cons, List.all_cons, hr, Option.isSome_some, Bool.true_and]
      exact hall
    · simp only [List.map_cons, hr, List.flatten_cons]
      have hstep :
          List.foldl (fun a r => dictMerge a (r.getD [])) acc
              (some r :: bs.map checker) =
            List.foldl (fun a r => dictMerge a (r.getD [])) (dictMerge acc r)
              (bs.map checker) := rfl
      rw [hstep]
      refine hperm.trans ?_
      rw [hmk, List.append_assoc]
      exact hpermnd.symm

lemma process_urls_spec
    (checker : List String → Option (List (String × UrlStatus)))
    (batches : List (List String))
    (hok : ∀ b ∈ batches, ∃ r, checker b = some r ∧ (r.map Prod.fst).Perm b)
    (hnd : batches.flatten.Nodup) :
    ∃ m, process_urls checker batches = some m ∧
      (m.map Prod.fst).Perm batches.flatten := by
  obtain ⟨hall, hperm⟩ :=
    process_urls_fold_spec checker batches [] hok (by simpa using hnd)
  refine ⟨_, ?_, by simpa using hperm⟩
  unfold process_urls
  rw [if_pos hall]

lemma check_url_batch_spec (red : Bool) (b : List String)
    (probe : String → RawProbeOutcome)
    (hsch : ∀ u ∈ b, (schemeOf u).isSome) :
    ∃ r, check_url_batch b red ((sortStrings b).map probe) = some r ∧
      (r.map Prod.fst).Perm b := by
  obtain ⟨r, hr, hkeys⟩ := zipClassify_spec
    (if red then URL_TIMEOUT_REDIRECT else URL_TIMEOUT)
    (sortStrings b) ((sortStrings b).map probe)
    (by rw [List.length_map])
    (fun u hu => hsch u ((sortStrings_perm b).mem_iff.mp hu))
  exact ⟨r, hr, hkeys ▸ sortStrings_perm b⟩

lemma check_urls_spec (red : Bool) (urls : List String)
    (probe : String → RawProbeOutcome) (hnd : urls.Nodup) :
    ∃ m, check_urls red urls probe = some m ∧
      (m.map Prod.fst).Perm (urls.filter supportedScheme) := by
  have hjoin : (check_urls_batches urls).flatten = check_urls_ordered urls :=
    check_urls_batches_join urls
  have hordperm := check_urls_ordered_perm urls
  have hfnd : (check_urls_filtered urls).Nodup := hnd.filter _
  have hordnd : (check_urls_ordered urls).Nodup := hordperm.nodup_iff.mpr hfnd
  have hok : ∀ b ∈ check_urls_batches urls, ∃ r,
      check_url_batch b red ((sortStrings b).map probe) = some r ∧
        (r.map Prod.fst).Perm b := by
    intro b hb
    apply check_url_batch_spec
    intro u hu
    have hu2 : u ∈ (check_urls_batches urls).flatten := List.mem_flatten.mpr ⟨b, hb, hu⟩
    rw [hjoin] at hu2
    have hu3 : u ∈ check_urls_filtered urls := hordperm.mem_iff.mp hu2
    exact schemeOf_isSome_of_supported (List.of_mem_filter hu3)
  obtain ⟨m, hm, hperm⟩ := process_urls_spec _ (check_urls_batches urls) hok
    (by rw [hjoin]; exact hordnd)
  exact ⟨m, hm, hperm.trans (hjoin ▸ hordperm)⟩

/-! Round-trip coverage (C6). -/

/-- C6: round-trip coverage — a batch of distinct supported URLs checked
with one outcome per URL yields a result map whose key set equals the
batch exactly (no URL dropped, none duplicated); and the whole checking
core returns a map whose key set is exactly the supported subset of its
distinct input URLs, every supported input being a key and every
unsupported input falling back to the `UNSUPPORTED` default on lookup. -/
theorem check_round_trip_coverage :
    (∀ (red : Bool) (batch : List String) (outcomes : List RawProbeOutcome),
       batch.Nodup → (∀ u ∈ batch, supportedScheme u = true) →
       outcomes.length = batch.length →
       ∃ r, check_url_batch batch red outcomes = some r ∧
         (r.map Prod.fst).Perm batch ∧ (r.map Prod.fst).Nodup) ∧
    (∀ (red : Bool) (urls : List String) (probe : String → RawProbeOutcome),
       urls.Nodup →
       ∃ m, check_urls red urls probe = some m ∧
         (m.map Prod.fst).Perm (urls.filter supportedScheme) ∧
         ∀ u ∈ urls,
           (supportedScheme u = true → (dictGet u m).isSome) ∧
           (supportedScheme u = false →
              (dictGet u m).getD UrlStatus.UNSUPPORTED = UrlStatus.UNSUPPORTED)) := by
  constructor
  · intro red batch outcomes hnd hsupp hlen
    obtain ⟨r, hr, hkeys⟩ := zipClassify_spec
      (if red then URL_TIMEOUT_REDIRECT else URL_TIMEOUT)
      (sortStrings batch) outcomes
      (by rw [hlen, (sortStrings_perm batch).length_eq])
      (fun u hu => schemeOf_isSome_of_supported
        (hsupp u ((sortStrings_perm batch).mem_iff.mp hu)))
    refine ⟨r, hr, hkeys ▸ sortStrings_perm batch, ?_⟩
    rw [hkeys]
    exact (sortStrings_perm batch).nodup_iff.mpr hnd
  · intro red urls probe hnd
    obtain ⟨m, hm, hperm⟩ := check_urls_spec red urls probe hnd
    refine ⟨m, hm, hperm, ?_⟩
    intro u hu
    constructor
    · intro hsupp
      rw [dictGet_isSome_iff]
      exact hperm.mem_iff.mpr (List.mem_filter.mpr ⟨hu, hsupp⟩)
    · intro hunsupp
      have hnone : dictGet u m = none := by
        rw [dictGet_eq_none_iff]
        intro hmem
        have := List.of_mem_filter (hperm.mem_iff.mp hmem)
        rw [hunsupp] at this
        exact Bool.false_ne_true this
      rw [hnone]
      rfl

theorem check_round_trip_coverage_witness :
    ∃ m, check_urls false ["http://a", "git://b"] (fun _ => ⟨200, 0, 5, 10, 1⟩) =
        some m ∧
      (m.map Prod.fst).Perm
        (["http://a", "git://b"].filter supportedScheme) ∧
      ∀ u ∈ ["http://a", "git://b"],
        (supportedScheme u = true → (dictGet u m).isSome) ∧
        (supportedScheme u = false →
           (dictGet u m).getD UrlStatus.UNSUPPORTED = UrlStatus.UNSUPPORTED) :=
  check_round_trip_coverage.2 false ["http://a", "git://b"]
    (fun _ => ⟨200, 0, 5, 10, 1⟩) (by decide)

/-! Scheme behaviour under a trailing-slash append (used for C5). -/

lemma takeWhile_append_one (p : Char → Bool) (c : Char) (hc : p c = false) :
    ∀ l : List Char, (l ++ [c]).takeWhile p = l.takeWhile p := by
  intro l
  induction l with
  | nil => simp [List.takeWhile_cons, hc]
  | cons x xs ih =>
    by_cases hx : p x
    · simp only [List.cons_append, List.takeWhile_cons, hx, ih]
    · simp only [List.cons_append, List.takeWhile_cons, Bool.not_eq_true] at *
      simp [hx]

lemma dropWhile_append_one (p : Char → Bool) (c : Char) (hc : p c = false) :
    ∀ l : List Char, (l ++ [c]).dropWhile p = l.dropWhile p ++ [c] := by
  intro l
  induction l with
  | nil => simp [List.dropWhile_cons, hc]
  | cons x xs ih =>
    by_cases hx : p x
    · simp only [List.cons_append, List.dropWhile_cons, hx, ih]
      simp
    · simp only [List.cons_append, List.dropWhile_cons]
      simp [hx]

lemma schemeSplit_append_slash {l : List Char} (hlast : l.getLast? ≠ some '/') :
    schemeSplit (l ++ ['/']) = schemeSplit l := by
  have hslash : isSchemeChar '/' = false := by decide
  unfold schemeSplit
  rw [takeWhile_append_one isSchemeChar '/' hslash l,
    dropWhile_append_one isSchemeChar '/' hslash l]
  cases hr : l.dropWhile isSchemeChar with
  | nil =>
    rw [if_neg (fun h => absurd h.2 (by decide)),
      if_neg (fun h => absurd h.2 (by decide))]
  | cons c1 rest =>
    cases rest with
    | nil =>
      rw [if_neg (fun h => absurd h.2 (by simp)),
        if_neg (fun h => absurd h.2 (by simp))]
    | cons c2 rest2 =>
      cases rest2 with
      | nil =>
        have hlast2 : l.getLast? = some c2 := by
          conv_lhs => rw [← List.takeWhile_append_dropWhile isSchemeChar l, hr]
          rw [List.getLast?_append_of_ne_nil _ (by simp)]
          rfl
        have hc2 : c2 ≠ '/' := fun hc => hlast (hc ▸ hlast2)
        rw [if_neg (fun h => by
            have := h.2
            simp at this
            exact hc2 this.2),
          if_neg (fun h => absurd h.2 (by simp))]
      | cons c3 rest3 =>
        simp only [List.cons_append, List.take_succ_cons, List.take_zero]

lemma schemeOf_append_slash {u : String} (hlast : u.data.getLast? ≠ some '/') :
    schemeOf (u ++ "/") = schemeOf u := by
  unfold schemeOf
  have hdata : (u ++ "/").data = u.data ++ ['/'] := rfl
  rw [hdata, schemeSplit_append_slash hlast]

lemma supportedScheme_append_slash {u : String}
    (hlast : u.data.getLast? ≠ some '/') :
    supportedScheme (u ++ "/") = supportedScheme u := by
  unfold supportedScheme
  rw [schemeOf_append_slash hlast]

/-! Unsupported schemes are filtered, never probed, and default to
`UNSUPPORTED` (C5). -/

/-- C5: a URL whose scheme (or lack of a `scheme://` prefix) is outside
`{http, https, ftp, ftps}` never appears in any batch (so no probe is
issued and the classifier is never invoked on it), never appears in the
map returned by the checking core, and after the status-update step its
record's final status is `UNSUPPORTED` (the status map only ever holds
supported URLs). -/
theorem unsupported_scheme_never_probed (u : String)
    (hu : supportedScheme u = false) :
    (∀ (urls : List String) (b : List String),
       b ∈ check_urls_batches urls → u ∉ b) ∧
    (∀ (red : Bool) (urls : List String) (probe : String → RawProbeOutcome)
       (m : List (String × UrlStatus)),
       urls.Nodup → check_urls red urls probe = some m → dictGet u m = none) ∧
    (∀ (statuses : List (String × UrlStatus)) (e : UrlResult),
       (∀ p ∈ statuses, supportedScheme p.1 = true) →
       e.url = u → u ≠ "" →
       (update_url_status_entry statuses e).status = UrlStatus.UNSUPPORTED) := by
  have husupp : ∀ {v : List String}, u ∈ v.filter supportedScheme → False := by
    intro v hv
    have := List.of_mem_filter hv
    rw [hu] at this
    exact Bool.false_ne_true this
  refine ⟨?_, ?_, ?_⟩
  · intro urls b hb hmem
    have h2 : u ∈ (check_urls_batches urls).flatten := List.mem_flatten.mpr ⟨b, hb, hmem⟩
    rw [check_urls_batches_join] at h2
    exact husupp ((check_urls_ordered_perm urls).mem_iff.mp h2)
  · intro red urls probe m hnd hm
    obtain ⟨m', hm', hperm⟩ := check_urls_spec red urls probe hnd
    rw [hm] at hm'
    cases hm'
    rw [dictGet_eq_none_iff]
    intro hk
    exact husupp (hperm.mem_iff.mp hk)
  · intro statuses e hsupp heq hne
    subst heq
    have h1 : dictGet e.url statuses = none := by
      cases hd : dictGet e.url statuses with
      | none => rfl
      | some s =>
        have := hsupp (e.url, s) (dictGet_some_mem hd)
        rw [hu] at this
        exact absurd this (by simp)
    unfold update_url_status_entry
    by_cases hsl : e.url.data.getLast? = some '/'
    · simp only [h1, hsl]
      simp
    · have h2 : dictGet (e.url ++ "/") statuses = none := by
        cases hd : dictGet (e.url ++ "/") statuses with
        | none => rfl
        | some s =>
          have hs := hsupp (e.url ++ "/", s) (dictGet_some_mem hd)
          rw [supportedScheme_append_slash hsl, hu] at hs
          exact absurd hs (by simp)
      simp only [h1, if_pos hsl, h2]

theorem unsupported_scheme_never_probed_witness :
    (update_url_status_entry [("http://a", UrlStatus.VALID)]
       ⟨"p", UrlType.URL, "git://b", UrlStatus.UNCHECKED⟩).status =
      UrlStatus.UNSUPPORTED :=
  (unsupported_scheme_never_probed "git://b" (by decide)).2.2
    [("http://a", UrlStatus.VALID)]
    ⟨"p", UrlType.URL, "git://b", UrlStatus.UNCHECKED⟩
    (by decide) rfl (by decide)

/-! Recheck-driver lemmas (C8). -/

lemma check_urls_keys_spec {red : Bool} {urls : List String}
    {probe : String → RawProbeOutcome} {m : List (String × UrlStatus)}
    (hnd : urls.Nodup) (hm : check_urls red urls probe = some m) :
    (m.map Prod.fst).Nodup ∧ ∀ k ∈ m.map Prod.fst, supportedScheme k = true := by
  obtain ⟨m', hm', hperm⟩ := check_urls_spec red urls probe hnd
  rw [hm] at hm'
  cases hm'
  constructor
  · exact hperm.nodup_iff.mpr (hnd.filter _)
  · intro k hk
    exact List.of_mem_filter (hperm.mem_iff.mp hk)

lemma mem_recheckSet_iff {flag : UrlStatus} {m : List (String × UrlStatus)}
    {u : String} (hnd : (m.map Prod.fst).Nodup) :
    u ∈ recheckSet flag m ↔ dictGet u m = some flag := by
  unfold recheckSet
  constructor
  · intro hu
    obtain ⟨p, hp, hpu⟩ := List.mem_map.mp hu
    obtain ⟨hpm, hpf⟩ := List.mem_filter.mp hp
    have hflag : p.2 = flag := by simpa using hpf
    have hpair : (u, flag) ∈ m := by
      have : p = (u, flag) := by
        cases p
        simp only at hpu hflag
        rw [hpu, hflag]
      exact this ▸ hpm
    exact mem_dictGet hnd hpair
  · intro hd
    exact List.mem_map.mpr
      ⟨(u, flag), List.mem_filter.mpr ⟨dictGet_some_mem hd, by simp⟩, rfl⟩

lemma recheckSet_nodup {flag : UrlStatus} {m : List (String × UrlStatus)}
    (hnd : (m.map Prod.fst).Nodup) : (recheckSet flag m).Nodup := by
  unfold recheckSet
  have hsub : ((m.filter (fun p => p.2 = flag)).map Prod.fst).Sublist
      (m.map Prod.fst) := (List.filter_sublist m).map Prod.fst
  exact hnd.sublist hsub

lemma recheckSet_supported {flag : UrlStatus} {m : List (String × UrlStatus)}
    (hsupp : ∀ k ∈ m.map Prod.fst, supportedScheme k = true) :
    ∀ u ∈ recheckSet flag m, supportedScheme u = true := by
  intro u hu
  obtain ⟨p, hp, hpu⟩ := List.mem_map.mp hu
  exact hpu ▸ hsupp p.1 (List.mem_map_of_mem Prod.fst (List.mem_of_mem_filter hp))

lemma keys_nodup_dictMerge {a b : List (String × UrlStatus)}
    (ha : (a.map Prod.fst).Nodup) (hb : (b.map Prod.fst).Nodup) :
    ((dictMerge a b).map Prod.fst).Nodup := by
  rw [keys_dictMerge]
  refine (ha.filter _).append hb ?_
  intro k hk1 hk2
  have hnone : (dictGet k b).isNone = true := by
    simpa using List.of_mem_filter hk1
  rw [Option.isNone_iff_eq_none, dictGet_eq_none_iff] at hnone
  exact hnone hk2

lemma keys_supported_dictMerge {a b : List (String × UrlStatus)}
    (ha : ∀ k ∈ a.map Prod.fst, supportedScheme k = true)
    (hb : ∀ k ∈ b.map Prod.fst, supportedScheme k = true) :
    ∀ k ∈ (dictMerge a b).map Prod.fst, supportedScheme k = true := by
  intro k hk
  rw [keys_dictMerge] at hk
  rcases List.mem_append.mp hk with h | h
  · exact ha k (List.mem_of_mem_filter h)
  · exact hb k h

lemma recheck_pass_spec (probe : String → RawProbeOutcome) (flag : UrlStatus)
    (checked c2 : List (String × UrlStatus))
    (hnodup : (checked.map Prod.fst).Nodup)
    (hsupp : ∀ k ∈ checked.map Prod.fst, supportedScheme k = true)
    (h : recheck_pass probe flag checked = some c2) :
    (∀ u s, dictGet u checked = some s → s ≠ flag → dictGet u c2 = some s) ∧
    (∀ u m2, dictGet u checked = some flag →
       check_urls true (recheckSet flag checked) probe = some m2 →
       dictGet u c2 = dictGet u m2 ∧ (dictGet u m2).isSome) ∧
    ((c2.map Prod.fst).Nodup ∧
       ∀ k ∈ c2.map Prod.fst, supportedScheme k = true) := by
  unfold recheck_pass at h
  by_cases hre : (recheckSet flag checked).isEmpty
  · rw [if_pos hre] at h
    cases h
    refine ⟨fun u s hu _ => hu, ?_, hnodup, hsupp⟩
    intro u m2 hu _
    exfalso
    have hmem : u ∈ recheckSet flag checked := (mem_recheckSet_iff hnodup).mpr hu
    rw [List.isEmpty_iff] at hre
    rw [hre] at hmem
    exact List.not_mem_nil u hmem
  · rw [if_neg hre] at h
    obtain ⟨m2', hm2', hc2⟩ := Option.map_eq_some'.mp h
    subst hc2
    have hrsnd : (recheckSet flag checked).Nodup := recheckSet_nodup hnodup
    have hrssupp := @recheckSet_supported flag checked hsupp
    obtain ⟨m2'', hm2'', hperm⟩ := check_urls_spec true (recheckSet flag checked)
      probe hrsnd
    rw [hm2'] at hm2''
    cases hm2''
    have hfilter : (recheckSet flag checked).filter supportedScheme =
        recheckSet flag checked := List.filter_eq_self.mpr (by
      intro u hu
      exact hrssupp u hu)
    rw [hfilter] at hperm
    have hm2nd : (m2'.map Prod.fst).Nodup := hperm.nodup_iff.mpr hrsnd
    refine ⟨?_, ?_, ?_⟩
    · intro u s hu hs
      rw [dictGet_dictMerge]
      cases hb : dictGet u m2' with
      | none => exact hu
      | some v =>
        exfalso
        have humem : u ∈ recheckSet flag checked :=
          hperm.mem_iff.mp (List.mem_map.mpr ⟨(u, v), dictGet_some_mem hb, rfl⟩)
        have := (mem_recheckSet_iff hnodup).mp humem
        rw [hu] at this
        exact hs (Option.some.inj this)
    · intro u m2 hu hm2
      rw [hm2'] at hm2
      cases hm2
      have humem : u ∈ recheckSet flag checked := (mem_recheckSet_iff hnodup).mpr hu
      have hukey : u ∈ m2'.map Prod.fst := hperm.mem_iff.mpr humem
      have hsome : (dictGet u m2').isSome := (dictGet_isSome_iff u m2').mpr hukey
      obtain ⟨v, hv⟩ := Option.isSome_iff_exists.mp hsome
      refine ⟨?_, hsome⟩
      rw [dictGet_dictMerge, hv]
    · exact ⟨keys_nodup_dictMerge hnodup hm2nd,
        keys_supported_dictMerge hsupp (fun k hk =>
          hrssupp k (hperm.mem_iff.mp hk))⟩

/-- C8: the three-pass recheck driver — pass 2 re-checks exactly the URLs
whose pass-1 status is `REDIRECT` (with redirects followed and the long
deadline, which is what `check_urls true` uses) and overwrites their
status with the pass-2 result; pass 3 re-checks exactly the URLs whose
post-pass-2 status is `TEMPORARY_ERR` and overwrites; URLs outside the
flagged subset of a pass keep their prior status through that pass. -/
theorem recheck_driver_passes (urls : List String)
    (p1 p2 p3 : String → RawProbeOutcome)
    (c1 c2 c3 : List (String × UrlStatus))
    (hnd : urls.Nodup)
    (h1 : check_urls false urls p1 = some c1)
    (h2 : recheck_pass p2 UrlStatus.REDIRECT c1 = some c2)
    (h3 : recheck_pass p3 UrlStatus.TEMPORARY_ERR c2 = some c3) :
    run_checks urls p1 p2 p3 = some c3 ∧
    (∀ u, u ∈ recheckSet UrlStatus.REDIRECT c1 ↔
       dictGet u c1 = some UrlStatus.REDIRECT) ∧
    (∀ u s, dictGet u c1 = some s → s ≠ UrlStatus.REDIRECT →
       dictGet u c2 = some s) ∧
    (∀ u m2, dictGet u c1 = some UrlStatus.REDIRECT →
       check_urls true (recheckSet UrlStatus.REDIRECT c1) p2 = some m2 →
       dictGet u c2 = dictGet u m2 ∧ (dictGet u m2).isSome) ∧
    (∀ u, u ∈ recheckSet UrlStatus.TEMPORARY_ERR c2 ↔
       dictGet u c2 = some UrlStatus.TEMPORARY_ERR) ∧
    (∀ u s, dictGet u c2 = some s → s ≠ UrlStatus.TEMPORARY_ERR →
       dictGet u c3 = some s) ∧
    (∀ u m3, dictGet u c2 = some UrlStatus.TEMPORARY_ERR →
       check_urls true (recheckSet UrlStatus.TEMPORARY_ERR c2) p3 = some m3 →
       dictGet u c3 = dictGet u m3 ∧ (dictGet u m3).isSome) := by
  obtain ⟨hnd1, hsupp1⟩ := check_urls_keys_spec hnd h1
  obtain ⟨hkeep2, hover2, hnd2, hsupp2⟩ :=
    recheck_pass_spec p2 UrlStatus.REDIRECT c1 c2 hnd1 hsupp1 h2
  obtain ⟨hkeep3, hover3, hnd3, hsupp3⟩ :=
    recheck_pass_spec p3 UrlStatus.TEMPORARY_ERR c2 c3 hnd2 hsupp2 h3
  refine ⟨?_, fun u => mem_recheckSet_iff hnd1, hkeep2, hover2,
    fun u => mem_recheckSet_iff hnd2, hkeep3, hover3⟩
  simp only [run_checks, h1, h2, h3, Option.some_bind]

theorem recheck_driver_passes_witness :
    run_checks ["http://a"] (fun _ => ⟨301, 0, 5, 10, 1⟩)
        (fun _ => ⟨200, 0, 5, 10, 1⟩) (fun _ => ⟨200, 0, 5, 10, 1⟩) =
      some [("http://a", UrlStatus.VALID)] :=
  (recheck_driver_passes ["http://a"]
    (fun _ => ⟨301, 0, 5, 10, 1⟩) (fun _ => ⟨200, 0, 5, 10, 1⟩)
    (fun _ => ⟨200, 0, 5, 10, 1⟩)
    [("http://a", UrlStatus.REDIRECT)] [("http://a", UrlStatus.VALID)]
    [("http://a", UrlStatus.VALID)]
    (by decide) (by decide) (by decide) (by decide)).1
